import Mathlib

/- Verification development for bin/process_inbox.py of the secondBrain
   repository: a two-stage inbox classifier (deterministic prefix router,
   then an external-model fallback with retries, JSON extraction,
   confidence gating, and per-category record insertion).

   Modelling conventions:
   * Python strings are modelled as Lean `String`/`List Char`; character
     class predicates (whitespace, case mapping, word characters) cover the
     ASCII range that the program's literals and the claims exercise.
   * JSON values are the inductive `Json` below; numbers are rationals
     (nonfinite float literals such as NaN/Infinity are outside the model).
   * The external classifier process is an oracle `Nat → Except String String`
     giving, per attempt, either the process failure message (a raised
     exception) or its stdout.
   * The sqlite store is modelled by the `ItemOutcome` record: the UPDATE on
     the inbox row (with `Option` fields marking which columns the statement
     writes), the list of INSERTed category records, and the appended log
     rows.  Python exceptions that escape the per-item code are modelled by
     `Except.error`. -/

namespace SecondBrain

/-- Python `str.strip` whitespace set (ASCII part). -/
def isPySpace (c : Char) : Bool :=
  c = ' ' || c = '\t' || c = '\n' || c = '\r' || c = '\x0b' || c = '\x0c'

/-- Drop leading whitespace characters. -/
def trimFront : List Char → List Char
  | [] => []
  | c :: rest => if isPySpace c then trimFront rest else c :: rest

/-- Python `str.strip()`: remove leading and trailing whitespace. -/
def pyStripL (l : List Char) : List Char :=
  trimFront ((trimFront l.reverse).reverse)

/-- Python `str.strip()` on `String`. -/
def pyStrip (s : String) : String :=
  ⟨pyStripL s.data⟩

/-- ASCII lower-casing of one character (Python `str.lower`). -/
def lowerChar (c : Char) : Char :=
  if 'A' ≤ c ∧ c ≤ 'Z' then Char.ofNat (c.toNat + 32) else c

/-- ASCII upper-casing of one character. -/
def upperChar (c : Char) : Char :=
  if 'a' ≤ c ∧ c ≤ 'z' then Char.ofNat (c.toNat - 32) else c

/-- Python `str.lower()` (ASCII). -/
def pyLower (s : String) : String :=
  ⟨s.data.map lowerChar⟩

def isAsciiAlpha (c : Char) : Bool :=
  ('a' ≤ c ∧ c ≤ 'z') || ('A' ≤ c ∧ c ≤ 'Z')

/-- Helper for Python `str.title()`: upper-case a letter that follows a
    non-letter, lower-case a letter that follows a letter. -/
def titleChars : Bool → List Char → List Char
  | _, [] => []
  | prevAlpha, c :: rest =>
    let c' := if isAsciiAlpha c then (if prevAlpha then lowerChar c else upperChar c) else c
    c' :: titleChars (isAsciiAlpha c) rest

/-- Python `str.title()` (ASCII). -/
def pyTitle (s : String) : String :=
  ⟨titleChars false s.data⟩

/-- Python `str.startswith` on character lists. -/
def startsWithL : List Char → List Char → Bool
  | _, [] => true
  | [], _ :: _ => false
  | c :: cs, p :: ps => c = p && startsWithL cs ps

/-- Python slice `s[:2000]` used by `log_event`. -/
def take2000 (s : String) : String :=
  ⟨s.data.take 2000⟩

/-- JSON values as produced by `json.loads`.  Objects keep insertion order,
    with duplicate keys collapsed to the last value, like a Python dict. -/
inductive Json where
  | null
  | bool (b : Bool)
  | num (q : ℚ)
  | str (s : String)
  | arr (elems : List Json)
  | obj (pairs : List (String × Json))

mutual

/-- Decidable equality for `Json` (hand-written: the nested `List`
    occurrences defeat the deriving handler). -/
def Json.decEq : (a b : Json) → Decidable (a = b)
  | .null, .null => isTrue rfl
  | .bool x, .bool y =>
    if h : x = y then isTrue (congrArg Json.bool h)
    else isFalse (by intro hh; injection hh with h1; exact h h1)
  | .num x, .num y =>
    if h : x = y then isTrue (congrArg Json.num h)
    else isFalse (by intro hh; injection hh with h1; exact h h1)
  | .str x, .str y =>
    if h : x = y then isTrue (congrArg Json.str h)
    else isFalse (by intro hh; injection hh with h1; exact h h1)
  | .arr x, .arr y =>
    match Json.decEqList x y with
    | isTrue h => isTrue (congrArg Json.arr h)
    | isFalse h => isFalse (by intro hh; injection hh with h1; exact h h1)
  | .obj x, .obj y =>
    match Json.decEqPairs x y with
    | isTrue h => isTrue (congrArg Json.obj h)
    | isFalse h => isFalse (by intro hh; injection hh with h1; exact h h1)
  | .null, .bool _ => isFalse (fun h => Json.noConfusion h)
  | .null, .num _ => isFalse (fun h => Json.noConfusion h)
  | .null, .str _ => isFalse (fun h => Json.noConfusion h)
  | .null, .arr _ => isFalse (fun h => Json.noConfusion h)
  | .null, .obj _ => isFalse (fun h => Json.noConfusion h)
  | .bool _, .null => isFalse (fun h => Json.noConfusion h)
  | .bool _, .num _ => isFalse (fun h => Json.noConfusion h)
  | .bool _, .str _ => isFalse (fun h => Json.noConfusion h)
  | .bool _, .arr _ => isFalse (fun h => Json.noConfusion h)
  | .bool _, .obj _ => isFalse (fun h => Json.noConfusion h)
  | .num _, .null => isFalse (fun h => Json.noConfusion h)
  | .num _, .bool _ => isFalse (fun h => Json.noConfusion h)
  | .num _, .str _ => isFalse (fun h => Json.noConfusion h)
  | .num _, .arr _ => isFalse (fun h => Json.noConfusion h)
  | .num _, .obj _ => isFalse (fun h => Json.noConfusion h)
  | .str _, .null => isFalse (fun h => Json.noConfusion h)
  | .str _, .bool _ => isFalse (fun h => Json.noConfusion h)
  | .str _, .num _ => isFalse (fun h => Json.noConfusion h)
  | .str _, .arr _ => isFalse (fun h => Json.noConfusion h)
  | .str _, .obj _ => isFalse (fun h => Json.noConfusion h)
  | .arr _, .null => isFalse (fun h => Json.noConfusion h)
  | .arr _, .bool _ => isFalse (fun h => Json.noConfusion h)
  | .arr _, .num _ => isFalse (fun h => Json.noConfusion h)
  | .arr _, .str _ => isFalse (fun h => Json.noConfusion h)
  | .arr _, .obj _ => isFalse (fun h => Json.noConfusion h)
  | .obj _, .null => isFalse (fun h => Json.noConfusion h)
  | .obj _, .bool _ => isFalse (fun h => Json.noConfusion h)
  | .obj _, .num _ => isFalse (fun h => Json.noConfusion h)
  | .obj _, .str _ => isFalse (fun h => Json.noConfusion h)
  | .obj _, .arr _ => isFalse (fun h => Json.noConfusion h)

def Json.decEqList : (a b : List Json) → Decidable (a = b)
  | [], [] => isTrue rfl
  | [], _ :: _ => isFalse (fun h => List.noConfusion h)
  | _ :: _, [] => isFalse (fun h => List.noConfusion h)
  | x :: xs, y :: ys =>
    match Json.decEq x y, Json.decEqList xs ys with
    | isTrue h1, isTrue h2 => isTrue (by rw [h1, h2])
    | isFalse h1, _ => isFalse (by intro hh; injection hh with hh1 hh2; exact h1 hh1)
    | _, isFalse h2 => isFalse (by intro hh; injection hh with hh1 hh2; exact h2 hh2)

def Json.decEqPairs : (a b : List (String × Json)) → Decidable (a = b)
  | [], [] => isTrue rfl
  | [], _ :: _ => isFalse (fun h => List.noConfusion h)
  | _ :: _, [] => isFalse (fun h => List.noConfusion h)
  | (k1, v1) :: xs, (k2, v2) :: ys =>
    if hk : k1 = k2 then
      match Json.decEq v1 v2, Json.decEqPairs xs ys with
      | isTrue h1, isTrue h2 => isTrue (by rw [hk, h1, h2])
      | isFalse h1, _ => isFalse (by
          intro hh; injection hh with hh1 hh2
          injection hh1 with hhk hhv; exact h1 hhv)
      | _, isFalse h2 => isFalse (by intro hh; injection hh with hh1 hh2; exact h2 hh2)
    else isFalse (by
      intro hh; injection hh with hh1 hh2
      injection hh1 with hhk hhv; exact hk hhk)

end

instance : DecidableEq Json := Json.decEq

/-- Python truthiness of a JSON value. -/
def jtruthy : Json → Bool
  | .null => false
  | .bool b => b
  | .num q => q ≠ 0
  | .str s => s ≠ ""
  | .arr l => !l.isEmpty
  | .obj l => !l.isEmpty

/-- Python `a or b` restricted to JSON values. -/
def pyOr (a b : Json) : Json :=
  if jtruthy a then a else b

/-- Python dict lookup (first binding wins; the parser already collapses
    duplicate keys the way dict insertion does). -/
def lookupJ : List (String × Json) → String → Option Json
  | [], _ => none
  | (k, v) :: rest, key => if k = key then some v else lookupJ rest key

/-- Python dict insertion: replace the value of an existing key in place,
    otherwise append. -/
def insertKey : List (String × Json) → String → Json → List (String × Json)
  | [], k, v => [(k, v)]
  | (k', v') :: rest, k, v =>
    if k' = k then (k', v) :: rest else (k', v') :: insertKey rest k v

/- ===== A model of `json.loads` (the strict JSON grammar the standard
   library accepts; numbers become rationals, `NaN`/`Infinity` literals are
   outside the model). ===== -/

/-- JSON inter-token whitespace. -/
def isJWs (c : Char) : Bool :=
  c = ' ' || c = '\t' || c = '\n' || c = '\r'

def skipWs : List Char → List Char
  | [] => []
  | c :: rest => if isJWs c then skipWs rest else c :: rest

def isDigitC (c : Char) : Bool :=
  '0' ≤ c && c ≤ '9'

def digitsToNat (l : List Char) : Nat :=
  l.foldl (fun a c => a * 10 + (c.toNat - 48)) 0

/-- Span of leading digits. -/
def takeDigits : List Char → (List Char × List Char)
  | [] => ([], [])
  | c :: rest =>
    if isDigitC c then
      let (ds, r) := takeDigits rest
      (c :: ds, r)
    else ([], c :: rest)

def hexVal (c : Char) : Option Nat :=
  if '0' ≤ c ∧ c ≤ '9' then some (c.toNat - 48)
  else if 'a' ≤ c ∧ c ≤ 'f' then some (c.toNat - 87)
  else if 'A' ≤ c ∧ c ≤ 'F' then some (c.toNat - 55)
  else none

/-- One simple escape character (after a backslash). -/
def escChar (c : Char) : Option Char :=
  if c = '"' then some '"'
  else if c = '\\' then some '\\'
  else if c = '/' then some '/'
  else if c = 'b' then some '\x08'
  else if c = 'f' then some '\x0c'
  else if c = 'n' then some '\n'
  else if c = 'r' then some '\r'
  else if c = 't' then some '\t'
  else none

/-- JSON string body after the opening quote; surrogate pairs in
    consecutive `\\u` escapes are combined as Python does.  The fuel is one
    more than the input length, so it never runs out on the actual call. -/
def parseJStringGo : Nat → List Char → List Char → Option (String × List Char)
  | 0, _, _ => none
  | _ + 1, _, [] => none
  | fuel + 1, acc, c :: rest =>
    if c = '"' then some (⟨acc.reverse⟩, rest)
    else if c = '\\' then
      match rest with
      | [] => none
      | 'u' :: h1 :: h2 :: h3 :: h4 :: r2 =>
        match hexVal h1, hexVal h2, hexVal h3, hexVal h4 with
        | some a, some b, some d, some e =>
          let code := ((a * 16 + b) * 16 + d) * 16 + e
          if 0xD800 ≤ code ∧ code ≤ 0xDBFF then
            match r2 with
            | '\\' :: 'u' :: g1 :: g2 :: g3 :: g4 :: r3 =>
              match hexVal g1, hexVal g2, hexVal g3, hexVal g4 with
              | some a2, some b2, some d2, some e2 =>
                let low := ((a2 * 16 + b2) * 16 + d2) * 16 + e2
                if 0xDC00 ≤ low ∧ low ≤ 0xDFFF then
                  let comb := 0x10000 + (code - 0xD800) * 0x400 + (low - 0xDC00)
                  parseJStringGo fuel (Char.ofNat comb :: acc) r3
                else parseJStringGo fuel (Char.ofNat code :: acc) r2
              | _, _, _, _ => parseJStringGo fuel (Char.ofNat code :: acc) r2
            | _ => parseJStringGo fuel (Char.ofNat code :: acc) r2
          else parseJStringGo fuel (Char.ofNat code :: acc) r2
        | _, _, _, _ => none
      | e :: r2 =>
        match escChar e with
        | some c' => parseJStringGo fuel (c' :: acc) r2
        | none => none
    else if c.toNat < 0x20 then none
    else parseJStringGo fuel (c :: acc) rest

def parseJString (l : List Char) : Option (String × List Char) :=
  parseJStringGo (l.length + 1) [] l

/-- JSON number: `-? int frac? exp?` evaluated exactly as a rational. -/
def parseNumber (l : List Char) : Option (ℚ × List Char) :=
  let (neg, l1) := match l with
    | '-' :: t => (true, t)
    | _ => (false, l)
  match l1 with
  | [] => none
  | c :: t =>
    if ¬ isDigitC c then none
    else
      let (ds, l2) := if c = '0' then ([c], t) else takeDigits (c :: t)
      let fracStep : Option (List Char × List Char) :=
        match l2 with
        | '.' :: t2 =>
          let (fs, r) := takeDigits t2
          if fs.isEmpty then none else some (fs, r)
        | _ => some ([], l2)
      match fracStep with
      | none => none
      | some (fds, l3) =>
        let expStep : Option (Bool × Nat × List Char) :=
          match l3 with
          | 'e' :: t3 =>
            match t3 with
            | '-' :: t4 => let (es, r) := takeDigits t4
                           if es.isEmpty then none else some (true, digitsToNat es, r)
            | '+' :: t4 => let (es, r) := takeDigits t4
                           if es.isEmpty then none else some (false, digitsToNat es, r)
            | _ => let (es, r) := takeDigits t3
                   if es.isEmpty then none else some (false, digitsToNat es, r)
          | 'E' :: t3 =>
            match t3 with
            | '-' :: t4 => let (es, r) := takeDigits t4
                           if es.isEmpty then none else some (true, digitsToNat es, r)
            | '+' :: t4 => let (es, r) := takeDigits t4
                           if es.isEmpty then none else some (false, digitsToNat es, r)
            | _ => let (es, r) := takeDigits t3
                   if es.isEmpty then none else some (false, digitsToNat es, r)
          | _ => some (false, 0, l3)
        match expStep with
        | none => none
        | some (eneg, emag, l4) =>
          -- exact rational value of the decimal literal
          let mant : Nat := digitsToNat ds * 10 ^ fds.length + digitsToNat fds
          let q1 : ℚ := if eneg then mkRat (Int.ofNat mant) (10 ^ fds.length * 10 ^ emag)
                        else mkRat (Int.ofNat (mant * 10 ^ emag)) (10 ^ fds.length)
          some (if neg then -q1 else q1, l4)

mutual

/-- One JSON value, fuel-bounded recursive descent. -/
def parseValue : Nat → List Char → Option (Json × List Char)
  | 0, _ => none
  | fuel + 1, l =>
    match skipWs l with
    | [] => none
    | c :: rest =>
      if c = '{' then (parseObjectBody fuel rest).map (fun p => (Json.obj p.1, p.2))
      else if c = '[' then (parseArrayBody fuel rest).map (fun p => (Json.arr p.1, p.2))
      else if c = '"' then (parseJString rest).map (fun p => (Json.str p.1, p.2))
      else if startsWithL (c :: rest) "null".data then some (.null, (c :: rest).drop 4)
      else if startsWithL (c :: rest) "true".data then some (.bool true, (c :: rest).drop 4)
      else if startsWithL (c :: rest) "false".data then some (.bool false, (c :: rest).drop 5)
      else (parseNumber (c :: rest)).map (fun p => (Json.num p.1, p.2))

/-- Object body after the opening brace. -/
def parseObjectBody : Nat → List Char → Option (List (String × Json) × List Char)
  | 0, _ => none
  | fuel + 1, l =>
    match skipWs l with
    | '}' :: rest => some ([], rest)
    | l' => parseMembers fuel l' []

/-- `"key": value` members, comma-separated, closing brace. -/
def parseMembers : Nat → List Char → List (String × Json) → Option (List (String × Json) × List Char)
  | 0, _, _ => none
  | fuel + 1, l, acc =>
    match skipWs l with
    | '"' :: rest =>
      match parseJString rest with
      | none => none
      | some (k, r1) =>
        match skipWs r1 with
        | ':' :: r2 =>
          match parseValue fuel r2 with
          | none => none
          | some (v, r3) =>
            match skipWs r3 with
            | ',' :: r4 => parseMembers fuel r4 (insertKey acc k v)
            | '}' :: r4 => some (insertKey acc k v, r4)
            | _ => none
        | _ => none
    | _ => none

/-- Array body after the opening bracket. -/
def parseArrayBody : Nat → List Char → Option (List Json × List Char)
  | 0, _ => none
  | fuel + 1, l =>
    match skipWs l with
    | ']' :: rest => some ([], rest)
    | l' => parseItems fuel l' []

/-- Array elements, comma-separated, closing bracket. -/
def parseItems : Nat → List Char → List Json → Option (List Json × List Char)
  | 0, _, _ => none
  | fuel + 1, l, acc =>
    match parseValue fuel l with
    | none => none
    | some (v, r) =>
      match skipWs r with
      | ',' :: r2 => parseItems fuel r2 (acc ++ [v])
      | ']' :: r2 => some (acc ++ [v], r2)
      | _ => none

end

/-- `json.loads`: parse one value, allow surrounding whitespace, reject
    leftover input. -/
def loads (l : List Char) : Option Json :=
  match parseValue (2 * l.length + 8) l with
  | none => none
  | some (v, rest) => if (skipWs rest).isEmpty then some v else none

/- ===== A model of `json.dumps` (default separators).  The claims only ever
   constrain the length of logged details, never the rendered text, so the
   numeric rendering is a deterministic exact-rational form rather than
   Python float `repr`. ===== -/

def hexDigit (n : Nat) : Char :=
  if n < 10 then Char.ofNat (48 + n) else Char.ofNat (87 + n)

def dumpHex4 (n : Nat) : String :=
  ⟨[hexDigit (n / 4096 % 16), hexDigit (n / 256 % 16), hexDigit (n / 16 % 16), hexDigit (n % 16)]⟩

/-- `ensure_ascii` escaping of one character inside a dumped string. -/
def escapeJChar (c : Char) : String :=
  if c = '"' then "\\\""
  else if c = '\\' then "\\\\"
  else if c = '\n' then "\\n"
  else if c = '\t' then "\\t"
  else if c = '\r' then "\\r"
  else if c = '\x08' then "\\b"
  else if c = '\x0c' then "\\f"
  else if c.toNat < 0x20 ∨ c.toNat > 0x7e then
    if c.toNat ≤ 0xffff then "\\u" ++ dumpHex4 c.toNat
    else
      let n := c.toNat - 0x10000
      "\\u" ++ dumpHex4 (0xD800 + n / 0x400) ++ "\\u" ++ dumpHex4 (0xDC00 + n % 0x400)
  else ⟨[c]⟩

def dumpString (s : String) : String :=
  "\"" ++ String.join (s.data.map escapeJChar) ++ "\""

def dumpNum (q : ℚ) : String :=
  if q.den = 1 then toString q.num else toString q.num ++ "/" ++ toString q.den

mutual

def dumps : Json → String
  | .null => "null"
  | .bool true => "true"
  | .bool false => "false"
  | .num q => dumpNum q
  | .str s => dumpString s
  | .arr l => "[" ++ dumpsList l ++ "]"
  | .obj l => "\x7b" ++ dumpsPairs l ++ "\x7d"

def dumpsList : List Json → String
  | [] => ""
  | [x] => dumps x
  | x :: y :: rest => dumps x ++ ", " ++ dumpsList (y :: rest)

def dumpsPairs : List (String × Json) → String
  | [] => ""
  | [(k, v)] => dumpString k ++ ": " ++ dumps v
  | (k, v) :: p :: rest => dumpString k ++ ": " ++ dumps v ++ ", " ++ dumpsPairs (p :: rest)

end

/- ===== `extract_json` (the ResponseParser). ===== -/

/-- Index of the first occurrence of a character. -/
def firstIdxOf (c : Char) : List Char → Option Nat
  | [] => none
  | d :: rest => if d = c then some 0 else (firstIdxOf c rest).map (· + 1)

/-- Index of the last closing brace. -/
def lastClose (l : List Char) : Option Nat :=
  (firstIdxOf '}' l.reverse).map (fun k => l.length - 1 - k)

/-- The leftmost-greedy match of the regex `\x7b.*\x7d` with DOTALL: from
    the first opening brace through the last closing brace, provided the
    close comes after the open. -/
def braceBlob (l : List Char) : Option (List Char) :=
  match firstIdxOf '{' l, lastClose l with
  | some i, some j => if i < j then some ((l.drop i).take (j - i + 1)) else none
  | _, _ => none

/-- `extract_json`: strip, try a direct parse (returning whatever value it
    yields), then try the brace-delimited substring. -/
def extract_json (s : String) : Option Json :=
  let l := pyStripL s.data
  match loads l with
  | some v => some v
  | none =>
    match braceBlob l with
    | none => none
    | some blob => loads blob

/- ===== Aliases and `infer_person_name`. ===== -/

/-- The alias table: an association list with lowercased keys, as built by
    `load_aliases`.  Lookup follows Python dict semantics. -/
def aliasLookup : List (String × String) → String → Option String
  | [], _ => none
  | (k, v) :: rest, key => if k = key then some v else aliasLookup rest key

def kinshipWords : List String := ["mom", "mother", "dad", "father"]

/-- Python regex `\w` (ASCII range). -/
def isWordChar (c : Char) : Bool :=
  isAsciiAlpha c || isDigitC c || c = '_'

/-- `\b` holds before the match when the preceding character (if any) is not
    a word character; the kinship words all start with a word character. -/
def boundaryOk : Option Char → Bool
  | none => true
  | some c => !isWordChar c

/-- Does `w` match at the head of `l`, with a word boundary after it? -/
def wordHitAt (l : List Char) (w : String) : Bool :=
  startsWithL l w.data &&
    (match l.drop w.data.length with
     | [] => true
     | c :: _ => !isWordChar c)

/-- At one starting position, try the alternation `mom|mother|dad|father`
    in order. -/
def tryWordsAt (prev : Option Char) (l : List Char) : Option String :=
  if boundaryOk prev then kinshipWords.find? (fun w => wordHitAt l w) else none

/-- `re.search`: leftmost starting position wins. -/
def searchKinship : Option Char → List Char → Option String
  | _, [] => none
  | prev, c :: rest =>
    match tryWordsAt prev (c :: rest) with
    | some w => some w
    | none => searchKinship (some c) rest

/-- `infer_person_name`: lowercase the stripped text, search for a kinship
    word, and resolve it through the alias table (fallback: title-cased). -/
def infer_person_name (aliases : List (String × String)) (raw : String) : String :=
  let s : List Char := (pyStripL raw.data).map lowerChar
  match searchKinship none s with
  | some key => (aliasLookup aliases key).getD (pyTitle key)
  | none => ""

/- ===== `pre_route` (the PrefixRouter). ===== -/

/-- `strip_prefix` inside `pre_route`: slice the stripped original-case
    text past the prefix's length, then strip. -/
def stripAfter (s : List Char) (pfx : String) : String :=
  ⟨pyStripL (s.drop pfx.data.length)⟩

/-- The lowercased stripped text `low` that the prefix tests run on. -/
def preLow (raw : String) : List Char :=
  (pyStripL raw.data).map lowerChar

/-- `pre_route`: case-insensitive literal-prefix match; the remainder is the
    original-case text after the prefix, stripped. -/
def pre_route (raw : String) : Option (String × String) :=
  if startsWithL (preLow raw) "admin:".data then
    some ("admin", stripAfter (pyStripL raw.data) "admin:")
  else if startsWithL (preLow raw) "project:".data then
    some ("projects", stripAfter (pyStripL raw.data) "project:")
  else if startsWithL (preLow raw) "projects:".data then
    some ("projects", stripAfter (pyStripL raw.data) "projects:")
  else if startsWithL (preLow raw) "idea:".data then
    some ("ideas", stripAfter (pyStripL raw.data) "idea:")
  else if startsWithL (preLow raw) "ideas:".data then
    some ("ideas", stripAfter (pyStripL raw.data) "ideas:")
  else if startsWithL (preLow raw) "person:".data then
    some ("people", stripAfter (pyStripL raw.data) "person:")
  else if startsWithL (preLow raw) "people:".data then
    some ("people", stripAfter (pyStripL raw.data) "people:")
  else none

/- ===== Configuration constants. ===== -/

def MODEL : String := "phi4-mini:latest"

/-- `CONF_THRESHOLD = 0.60`. -/
def CONF_THRESHOLD : ℚ := mkRat 3 5

def MAX_RETRIES : Nat := 2

/- ===== Python coercions used by the validation stage. ===== -/

/-- Python `float()` on a string: optional sign, digits with an optional
    dot on either side, optional exponent, surrounding whitespace allowed.
    (`inf`/`nan` literals are outside the model.) -/
def parseFloatStr (l : List Char) : Option ℚ :=
  let (neg, l1) := match l with
    | '-' :: t => (true, t)
    | '+' :: t => (false, t)
    | _ => (false, l)
  let (ds, l2) := takeDigits l1
  let fracStep : List Char × List Char :=
    match l2 with
    | '.' :: t2 => takeDigits t2
    | _ => ([], l2)
  let fds := fracStep.1
  let l3 := fracStep.2
  if ds.isEmpty ∧ fds.isEmpty then none
  else
    let expStep : Option (Bool × Nat × List Char) :=
      match l3 with
      | 'e' :: t3 =>
        match t3 with
        | '-' :: t4 => let (es, r) := takeDigits t4
                       if es.isEmpty then none else some (true, digitsToNat es, r)
        | '+' :: t4 => let (es, r) := takeDigits t4
                       if es.isEmpty then none else some (false, digitsToNat es, r)
        | _ => let (es, r) := takeDigits t3
               if es.isEmpty then none else some (false, digitsToNat es, r)
      | 'E' :: t3 =>
        match t3 with
        | '-' :: t4 => let (es, r) := takeDigits t4
                       if es.isEmpty then none else some (true, digitsToNat es, r)
        | '+' :: t4 => let (es, r) := takeDigits t4
                       if es.isEmpty then none else some (false, digitsToNat es, r)
        | _ => let (es, r) := takeDigits t3
               if es.isEmpty then none else some (false, digitsToNat es, r)
      | _ => some (false, 0, l3)
    match expStep with
    | none => none
    | some (eneg, emag, l4) =>
      if l4.isEmpty then
        let mant : Nat := digitsToNat ds * 10 ^ fds.length + digitsToNat fds
        let q1 : ℚ := if eneg then mkRat (Int.ofNat mant) (10 ^ fds.length * 10 ^ emag)
                      else mkRat (Int.ofNat (mant * 10 ^ emag)) (10 ^ fds.length)
        some (if neg then -q1 else q1)
      else none

/-- Python `float(v)` on a JSON value; `.error` is a raised exception. -/
def pyFloat : Json → Except String ℚ
  | .num q => .ok q
  | .bool b => .ok (if b then 1 else 0)
  | .str s =>
    match parseFloatStr (pyStripL s.data) with
    | some q => .ok q
    | none => .error ("could not convert string to float: " ++ s)
  | .null => .error "float() argument must be a string or a real number, not NoneType"
  | .arr _ => .error "float() argument must be a string or a real number, not list"
  | .obj _ => .error "float() argument must be a string or a real number, not dict"

/-- Python `v.get(k)` (default `None`); raises AttributeError when `v` is
    not a dict. -/
def dictGetOpt (v : Json) (k : String) : Except String (Option Json) :=
  match v with
  | .obj l => .ok (lookupJ l k)
  | _ => .error "AttributeError: object has no attribute get"

/-- Python `(v or dflt).strip()` where `dflt` is a string literal; raises
    AttributeError when the surviving value is not a string. -/
def pyOrStrip (v : Json) (dflt : String) : Except String String :=
  match pyOr v (.str dflt) with
  | .str s => .ok (pyStrip s)
  | _ => .error "AttributeError: object has no attribute strip"

def validCats : List String := ["people", "projects", "ideas", "admin"]

/-- `category in ("people", "projects", "ideas", "admin")` for an arbitrary
    JSON value: only equal strings compare equal. -/
def catOf (v : Json) : Option String :=
  match v with
  | .str s => if s ∈ validCats then some s else none
  | _ => none

/- ===== The store-visible outcome of one item. ===== -/

/-- One category-table INSERT.  The required identifying field is the
    `String` argument; optional columns keep their JSON values. -/
inductive Record where
  | people (name : String) (context follow_up last_contact : Json)
  | project (name : String) (status : String) (next_action notes : Json)
  | idea (title : String) (one_liner notes : Json)
  | admin (task : String) (due_date : Json) (status : String)

/-- The required identifying field of a category record. -/
def requiredField : Record → String
  | .people n _ _ _ => n
  | .project n _ _ _ => n
  | .idea t _ _ => t
  | .admin t _ _ => t

/-- The UPDATE applied to the inbox row; a `none` column is absent from the
    SET clause (left unchanged). -/
structure InboxUpdate where
  status : String
  category : Option String
  confidence : Option ℚ
  model : Option String
  error : Option String

/-- One `log_events` row. -/
structure LogRow where
  event : String
  inbox_id : Nat
  details : String

/-- `log_event`: details are truncated to 2000 characters. -/
def logEvent (event : String) (inboxId : Nat) (details : String) : LogRow :=
  ⟨event, inboxId, take2000 details⟩

/-- Everything one item's processing writes to the store. -/
structure ItemOutcome where
  update : InboxUpdate
  inserts : List Record
  logs : List LogRow

deriving instance DecidableEq for Record

deriving instance DecidableEq for InboxUpdate

deriving instance DecidableEq for LogRow

deriving instance DecidableEq for ItemOutcome

deriving instance DecidableEq for Except

/- ===== The prefix stage of `main` (lines 176-237). ===== -/

/-- Name resolution for `person:`-prefixed items (lines 207-213). -/
def resolvePrefixName (aliases : List (String × String)) (clean : String) : String :=
  let name := pyStrip clean
  match aliasLookup aliases (pyLower name) with
  | some v => v
  | none =>
    if pyLower name ∈ kinshipWords then
      let i := infer_person_name aliases name
      if i = "" then pyTitle name else i
    else name

/-- Lines 230-234: the shared `processed` UPDATE and log of the prefix
    branch. -/
def prefixProcessed (inboxId : Nat) (cat : String) (recs : List Record) : ItemOutcome :=
  { update := ⟨"processed", some cat, some 1, some "prefix", some ""⟩,
    inserts := recs,
    logs := [logEvent "processed" inboxId ("prefix_route -> " ++ cat)] }

/-- Lines 179-187: a matched prefix followed by nothing. -/
def prefixEmptyOutcome (inboxId : Nat) (cat : String) : ItemOutcome :=
  { update := ⟨"needs_review", some cat, some 1, some "prefix", some "empty after prefix"⟩,
    inserts := [],
    logs := [logEvent "needs_review" inboxId ("prefix " ++ cat ++ " but empty")] }

/-- Lines 215-222: the resolved person name is empty. -/
def prefixMissingNameOutcome (inboxId : Nat) : ItemOutcome :=
  { update := ⟨"needs_review", some "people", some 1, some "prefix", some "missing person name"⟩,
    inserts := [],
    logs := [logEvent "needs_review" inboxId "missing person name (prefix)"] }

/-- The per-item writes of the prefix pre-router branch. -/
def prefixStage (aliases : List (String × String)) (inboxId : Nat)
    (raw cat clean : String) : ItemOutcome :=
  if clean = "" then prefixEmptyOutcome inboxId cat
  else if cat = "admin" then
    prefixProcessed inboxId cat [.admin clean (.str "") "open"]
  else if cat = "projects" then
    prefixProcessed inboxId cat [.project clean "active" (.str "") (.str "")]
  else if cat = "ideas" then
    prefixProcessed inboxId cat [.idea clean (.str "") (.str "")]
  else if cat = "people" then
    if resolvePrefixName aliases clean = "" then prefixMissingNameOutcome inboxId
    else
      -- the original raw text (prefix included) is stored as follow-up
      prefixProcessed inboxId cat
        [.people (resolvePrefixName aliases clean) (.str "") (.str raw) (.str "")]
  else
    prefixProcessed inboxId cat []

/- ===== The fallback retry loop (lines 240-252). ===== -/

def invalidJsonErr (attempt : Nat) : String :=
  "invalid json (attempt " ++ toString attempt ++ ")"

/-- The retry loop: per attempt, call the classifier (an exception message
    or stdout), extract JSON, and succeed only on a truthy dict
    (`if parsed and isinstance(parsed, dict)`).  Returns the parsed object's
    pairs (when one was accepted), the final `last_err`, and the number of
    classifier calls made. -/
def fallbackGo (cls : Nat → Except String String) :
    Nat → Nat → String → Option (List (String × Json)) × String × Nat
  | _, 0, lastErr => (none, lastErr, 0)
  | idx, rem + 1, lastErr =>
    match cls idx with
    | .error e =>
      let r := fallbackGo cls (idx + 1) rem e
      (r.1, r.2.1, r.2.2 + 1)
    | .ok out =>
      match extract_json out with
      | some (.obj (p :: ps)) => (some (p :: ps), lastErr, 1)
      | _ =>
        let r := fallbackGo cls (idx + 1) rem (invalidJsonErr idx)
        (r.1, r.2.1, r.2.2 + 1)

/- ===== The fallback stage of `main` (lines 240-364). ===== -/

/-- Validation failure / confidence gating outcome (lines 267-282). -/
def gatingOutcome (inboxId : Nat) (cat : String) (confidence : ℚ) (result : Json) : ItemOutcome :=
  { update := ⟨"needs_review", some cat, some confidence, some MODEL, some ""⟩,
    inserts := [],
    logs := [logEvent "needs_review" inboxId (dumps result)] }

/-- Missing-required-field outcome (category-specific reason). -/
def missingFieldOutcome (inboxId : Nat) (cat : String) (confidence : ℚ) (reason : String) : ItemOutcome :=
  { update := ⟨"needs_review", some cat, some confidence, some MODEL, some reason⟩,
    inserts := [],
    logs := [logEvent "needs_review" inboxId reason] }

/-- Successful routing outcome (lines 359-363). -/
def processedOutcome (inboxId : Nat) (cat : String) (confidence : ℚ) (result : Json)
    (recs : List Record) : ItemOutcome :=
  { update := ⟨"processed", some cat, some confidence, some MODEL, some ""⟩,
    inserts := recs,
    logs := [logEvent "processed" inboxId (dumps result)] }

/-- Lines 254-261: every fallback attempt failed.  Only the status, error
    and model columns appear in the UPDATE. -/
def fallbackFailOutcome (inboxId : Nat) (lastErr : String) : ItemOutcome :=
  { update := ⟨"needs_review", none, none, some MODEL, some lastErr⟩,
    inserts := [],
    logs := [logEvent "needs_review" inboxId lastErr] }

/-- Lines 285-287: the stripped extracted name, falling back to the name
    inferencer on the raw text when empty. -/
def peopleName (aliases : List (String × String)) (raw name0 : String) : String :=
  if name0 = "" then infer_person_name aliases raw else name0

/-- Lines 284-301: the `people` extraction block. -/
def peopleStage (aliases : List (String × String)) (inboxId : Nat) (raw : String)
    (result fields : Json) (c : String) (confidence : ℚ) : Except String ItemOutcome :=
  match dictGetOpt fields "name" with
  | .error e => .error e
  | .ok nameRaw =>
    match pyOrStrip (nameRaw.getD .null) "" with
    | .error e => .error e
    | .ok name0 =>
      if peopleName aliases raw name0 = "" then
        .ok (missingFieldOutcome inboxId "people" confidence "missing person name")
      else
        match dictGetOpt fields "context", dictGetOpt fields "follow_up",
              dictGetOpt fields "last_contact" with
        | .ok ctx, .ok fup, .ok lc =>
          .ok (processedOutcome inboxId c confidence result
            [.people (peopleName aliases raw name0)
              (ctx.getD (.str "")) (fup.getD (.str "")) (lc.getD (.str ""))])
        | .error e, _, _ => .error e
        | _, .error e, _ => .error e
        | _, _, .error e => .error e

/-- Lines 303-321: the `projects` extraction block. -/
def projectsStage (inboxId : Nat) (result fields : Json) (c : String)
    (confidence : ℚ) : Except String ItemOutcome :=
  match dictGetOpt fields "name" with
  | .error e => .error e
  | .ok nameRaw =>
    match pyOrStrip (nameRaw.getD .null) "" with
    | .error e => .error e
    | .ok name =>
      if name = "" then
        .ok (missingFieldOutcome inboxId "projects" confidence "missing project name")
      else
        match dictGetOpt fields "status" with
        | .error e => .error e
        | .ok statusRaw =>
          match pyOrStrip (statusRaw.getD .null) "active" with
          | .error e => .error e
          | .ok status0 =>
            match dictGetOpt fields "next_action", dictGetOpt fields "notes" with
            | .ok na, .ok notes =>
              .ok (processedOutcome inboxId c confidence result
                [.project name
                  (if status0 ∈ ["active", "waiting", "blocked", "someday", "done"]
                   then status0 else "active")
                  (na.getD (.str "")) (notes.getD (.str ""))])
            | .error e, _ => .error e
            | _, .error e => .error e

/-- Lines 323-337: the `ideas` extraction block (`fields.title`, falling
    back to the top-level `title`). -/
def ideasStage (inboxId : Nat) (pairs : List (String × Json)) (result fields : Json)
    (c : String) (confidence : ℚ) : Except String ItemOutcome :=
  match dictGetOpt fields "title" with
  | .error e => .error e
  | .ok titleRaw =>
    match pyOrStrip (pyOr (titleRaw.getD .null) ((lookupJ pairs "title").getD .null)) "" with
    | .error e => .error e
    | .ok title =>
      if title = "" then
        .ok (missingFieldOutcome inboxId "ideas" confidence "missing idea title")
      else
        match dictGetOpt fields "one_liner", dictGetOpt fields "notes" with
        | .ok ol, .ok notes =>
          .ok (processedOutcome inboxId c confidence result
            [.idea title (ol.getD (.str "")) (notes.getD (.str ""))])
        | .error e, _ => .error e
        | _, .error e => .error e

/-- Lines 339-357: the `admin` extraction block. -/
def adminStage (inboxId : Nat) (result fields : Json) (c : String)
    (confidence : ℚ) : Except String ItemOutcome :=
  match dictGetOpt fields "task" with
  | .error e => .error e
  | .ok taskRaw =>
    match pyOrStrip (taskRaw.getD .null) "" with
    | .error e => .error e
    | .ok task =>
      if task = "" then
        .ok (missingFieldOutcome inboxId "admin" confidence "missing admin task")
      else
        match dictGetOpt fields "status" with
        | .error e => .error e
        | .ok statusRaw =>
          match pyOrStrip (statusRaw.getD .null) "open" with
          | .error e => .error e
          | .ok status0 =>
            match dictGetOpt fields "due_date" with
            | .error e => .error e
            | .ok dd =>
              .ok (processedOutcome inboxId c confidence result
                [.admin task (dd.getD (.str ""))
                  (if status0 ∈ ["open", "done"] then status0 else "open")])

/-- The `category == ...` chain (lines 284-357); the final fall-through is
    unreachable because the category was validated. -/
def categoryStage (aliases : List (String × String)) (inboxId : Nat) (raw : String)
    (pairs : List (String × Json)) (c : String) (confidence : ℚ) (fields : Json) :
    Except String ItemOutcome :=
  if c = "people" then peopleStage aliases inboxId raw (Json.obj pairs) fields c confidence
  else if c = "projects" then projectsStage inboxId (Json.obj pairs) fields c confidence
  else if c = "ideas" then ideasStage inboxId pairs (Json.obj pairs) fields c confidence
  else if c = "admin" then adminStage inboxId (Json.obj pairs) fields c confidence
  else .ok (processedOutcome inboxId c confidence (Json.obj pairs) [])

/-- The LLM routing fallback, validation (lines 263-282), and per-category
    field extraction.  `.error` models a Python exception escaping the
    per-item code (there is no try/except around this part of the loop
    body).  `result`, `category`, `confidence` and `fields` of lines
    263-265 appear inline. -/
def fallbackStage (aliases : List (String × String)) (cls : Nat → Except String String)
    (inboxId : Nat) (raw : String) : Except String ItemOutcome :=
  match fallbackGo cls 0 (MAX_RETRIES + 1) "" with
  | (none, lastErr, _) =>
    -- total classifier failure: only status, error and model are written
    .ok (fallbackFailOutcome inboxId lastErr)
  | (some pairs, _, _) =>
    match pyFloat (pyOr ((lookupJ pairs "confidence").getD (.num 0)) (.num 0)) with
    | .error e => .error e
    | .ok confidence =>
      match catOf ((lookupJ pairs "category").getD (.str "unknown")) with
      | none => .ok (gatingOutcome inboxId "unknown" confidence (Json.obj pairs))
      | some c =>
        if confidence < CONF_THRESHOLD then
          .ok (gatingOutcome inboxId c confidence (Json.obj pairs))
        else
          categoryStage aliases inboxId raw pairs c confidence
            (pyOr ((lookupJ pairs "fields").getD (.obj [])) (.obj []))

/- ===== One item and the batch loop of `main`. ===== -/

/-- Process one inbox item: prefix stage, else the fallback stage. -/
def processItem (aliases : List (String × String)) (cls : Nat → Except String String)
    (inboxId : Nat) (raw : String) : Except String ItemOutcome :=
  match pre_route raw with
  | some (cat, clean) => .ok (prefixStage aliases inboxId raw cat clean)
  | none => fallbackStage aliases cls inboxId raw

/-- The `for r in rows` loop: there is no exception handler around an
    item's processing, so an escaped exception aborts the whole batch and
    later items are never reached. -/
def runBatch (aliases : List (String × String)) (clsFor : Nat → Nat → Except String String) :
    List (Nat × String) → Except String (List (Nat × ItemOutcome))
  | [] => .ok []
  | (id, raw) :: rest =>
    match processItem aliases (clsFor id) id raw with
    | .error e => .error e
    | .ok out =>
      match runBatch aliases clsFor rest with
      | .error e => .error e
      | .ok outs => .ok ((id, out) :: outs)

/- ===== Lemmas: `strip` is idempotent. ===== -/

/-- No leading whitespace. -/
def noLeadWs (l : List Char) : Prop :=
  ∀ c, l.head? = some c → isPySpace c = false

/-- No trailing whitespace. -/
def noTrailWs (l : List Char) : Prop :=
  noLeadWs l.reverse

theorem noLead_trimFront (l : List Char) : noLeadWs (trimFront l) := by
  induction l with
  | nil => intro c hc; simp [trimFront] at hc
  | cons a t ih =>
    by_cases ha : isPySpace a
    · simpa [trimFront, ha] using ih
    · intro c hc
      simp [trimFront, ha] at hc
      rw [← hc]
      exact Bool.not_eq_true _ ▸ ha

theorem trimFront_of_noLead {l : List Char} (h : noLeadWs l) : trimFront l = l := by
  cases l with
  | nil => rfl
  | cons a t =>
    have := h a rfl
    simp [trimFront, this]

theorem noTrail_of_cons {c : Char} {t : List Char} (h : noTrailWs (c :: t)) : noTrailWs t := by
  intro d hd
  apply h d
  rw [List.reverse_cons]
  cases ht : t.reverse with
  | nil => rw [ht] at hd; simp at hd
  | cons x xs =>
    rw [ht] at hd
    simp at hd
    simp [hd]

theorem noTrail_trimFront {l : List Char} (h : noTrailWs l) : noTrailWs (trimFront l) := by
  induction l with
  | nil => simpa [trimFront] using h
  | cons a t ih =>
    by_cases ha : isPySpace a
    · simp only [trimFront, ha, if_true]
      exact ih (noTrail_of_cons h)
    · simpa [trimFront, ha] using h

theorem noLead_pyStripL (l : List Char) : noLeadWs (pyStripL l) :=
  noLead_trimFront _

theorem noTrail_pyStripL (l : List Char) : noTrailWs (pyStripL l) := by
  apply noTrail_trimFront
  show noLeadWs ((trimFront l.reverse).reverse.reverse)
  rw [List.reverse_reverse]
  exact noLead_trimFront _

theorem pyStripL_of_norm {l : List Char} (h1 : noLeadWs l) (h2 : noTrailWs l) :
    pyStripL l = l := by
  unfold pyStripL
  rw [trimFront_of_noLead h2, List.reverse_reverse, trimFront_of_noLead h1]

theorem pyStripL_idem (l : List Char) : pyStripL (pyStripL l) = pyStripL l :=
  pyStripL_of_norm (noLead_pyStripL l) (noTrail_pyStripL l)

theorem pyStrip_mk (l : List Char) : pyStrip (⟨pyStripL l⟩ : String) = ⟨pyStripL l⟩ := by
  show (⟨pyStripL (pyStripL l)⟩ : String) = ⟨pyStripL l⟩
  rw [pyStripL_idem]

theorem pyStrip_idem (s : String) : pyStrip (pyStrip s) = pyStrip s :=
  pyStrip_mk s.data

/- ===== Lemmas: shapes of `pre_route` results, alias lookups and the
   kinship search. ===== -/

/-- A fired prefix yields one of the four categories, and a remainder that
    is already stripped. -/
theorem pre_route_shape {raw cat clean : String} (h : pre_route raw = some (cat, clean)) :
    (cat = "admin" ∨ cat = "projects" ∨ cat = "ideas" ∨ cat = "people") ∧
      pyStrip clean = clean := by
  unfold pre_route at h
  split at h <;>
    [skip; split at h] <;> [skip; skip; split at h] <;> [skip; skip; skip; split at h] <;>
    [skip; skip; skip; skip; split at h] <;> [skip; skip; skip; skip; skip; split at h] <;>
    [skip; skip; skip; skip; skip; skip; split at h] <;>
    first
      | (injection h with h1; injection h1 with hcat hclean;
         subst hcat; subst hclean;
         exact ⟨by simp, pyStrip_mk _⟩)
      | exact absurd h (by simp)

/-- `aliasLookup` only returns stored values. -/
theorem aliasLookup_mem {al : List (String × String)} {k v : String}
    (h : aliasLookup al k = some v) : ∃ k', (k', v) ∈ al := by
  induction al with
  | nil => simp [aliasLookup] at h
  | cons p rest ih =>
    obtain ⟨pk, pv⟩ := p
    rw [aliasLookup] at h
    split at h
    · injection h with hv
      subst hv
      exact ⟨pk, List.mem_cons_self _ _⟩
    · obtain ⟨k', hk'⟩ := ih h
      exact ⟨k', List.mem_cons_of_mem _ hk'⟩

/-- The kinship search only returns words of the fixed alternation. -/
theorem searchKinship_mem {prev : Option Char} {l : List Char} {w : String}
    (h : searchKinship prev l = some w) : w ∈ kinshipWords := by
  induction l generalizing prev with
  | nil => simp [searchKinship] at h
  | cons c rest ih =>
    rw [searchKinship] at h
    split at h
    · next heq =>
      injection h with hw
      subst hw
      unfold tryWordsAt at heq
      split at heq
      · exact List.mem_of_find?_eq_some heq
      · simp at heq
    · exact ih h

/-- Alias tables whose values carry no surrounding whitespace. -/
def TrimmedAliases (aliases : List (String × String)) : Prop :=
  ∀ p ∈ aliases, pyStrip p.2 = p.2

/-- Under a trimmed alias table, the inferred person name is itself
    trimmed. -/
theorem infer_trimmed {aliases : List (String × String)} {raw : String}
    (halias : TrimmedAliases aliases) :
    pyStrip (infer_person_name aliases raw) = infer_person_name aliases raw := by
  simp only [infer_person_name]
  rcases hs : searchKinship none ((pyStripL raw.data).map lowerChar) with _ | key
  · dsimp only
    decide
  · dsimp only
    rcases hl : aliasLookup aliases key with _ | v
    · have hk := searchKinship_mem hs
      simp only [Option.getD_none]
      rcases (by simpa [kinshipWords] using hk : key = "mom" ∨ key = "mother" ∨ key = "dad" ∨ key = "father") with h | h | h | h <;>
        (subst h; decide)
    · simp only [Option.getD_some]
      obtain ⟨k', hmem⟩ := aliasLookup_mem hl
      exact halias _ hmem

/-- Under a trimmed alias table, the resolved prefix person name is itself
    trimmed (for a remainder that `pre_route` produced, i.e. stripped). -/
theorem resolve_trimmed {aliases : List (String × String)} {clean : String}
    (halias : TrimmedAliases aliases) (hclean : pyStrip clean = clean) :
    pyStrip (resolvePrefixName aliases clean) = resolvePrefixName aliases clean := by
  simp only [resolvePrefixName]
  rw [hclean]
  rcases hl : aliasLookup aliases (pyLower clean) with _ | v
  · dsimp only
    split
    · next hmem =>
      split
      · next hinf =>
        -- a kinship remainder with no alias entry always titles to a
        -- nonempty name, so this branch is impossible
        exfalso
        have hdata : pyStripL clean.data = clean.data := congrArg String.data hclean
        have hmap : clean.data.map lowerChar = (pyLower clean).data := rfl
        rcases (by simpa [kinshipWords] using hmem :
            pyLower clean = "mom" ∨ pyLower clean = "mother" ∨
            pyLower clean = "dad" ∨ pyLower clean = "father") with h | h | h | h <;>
          · rw [infer_person_name] at hinf
            simp only [hdata, hmap, h] at hinf
            rw [h] at hl
            first
              | rw [show searchKinship none ['m', 'o', 'm'] = some "mom" from by decide] at hinf
              | rw [show searchKinship none ['m', 'o', 't', 'h', 'e', 'r'] = some "mother" from by decide] at hinf
              | rw [show searchKinship none ['d', 'a', 'd'] = some "dad" from by decide] at hinf
              | rw [show searchKinship none ['f', 'a', 't', 'h', 'e', 'r'] = some "father" from by decide] at hinf
            simp only [hl, Option.getD_none] at hinf
            exact absurd hinf (by decide)
      · next hinf => exact infer_trimmed halias
    · exact hclean
  · dsimp only
    obtain ⟨k', hmem⟩ := aliasLookup_mem hl
    exact halias _ hmem

/- ===== The master invariant over per-item outcomes. ===== -/

/-- A stripped result of `pyOrStrip` is trimmed. -/
theorem pyOrStrip_trimmed {v : Json} {d s : String} (h : pyOrStrip v d = .ok s) :
    pyStrip s = s := by
  unfold pyOrStrip at h
  split at h
  · injection h with hs
    rw [← hs]
    exact pyStrip_idem _
  · exact absurd h (by simp)

/-- What every terminal outcome satisfies: a terminal status, exactly one
    log row matching the status (details truncated to 2000 characters),
    inserts exactly on `processed`, and (under a trimmed alias table) no
    inserted record with a blank required field. -/
def OutcomeInv (aliases : List (String × String)) (inboxId : Nat) (out : ItemOutcome) : Prop :=
  (out.update.status = "processed" ∨ out.update.status = "needs_review")
  ∧ (∃ d, out.logs = [⟨out.update.status, inboxId, d⟩] ∧ d.data.length ≤ 2000)
  ∧ (out.update.status = "processed" ↔ out.inserts ≠ [])
  ∧ (TrimmedAliases aliases → ∀ rec ∈ out.inserts, pyStrip (requiredField rec) ≠ "")
  ∧ ((out.update.category = none ∨ out.update.confidence = none) →
      ∃ e, out = fallbackFailOutcome inboxId e)

theorem logEvent_shape (ev : String) (inboxId : Nat) (det : String) :
    ∃ d, [logEvent ev inboxId det] = [(⟨ev, inboxId, d⟩ : LogRow)] ∧ d.data.length ≤ 2000 :=
  ⟨take2000 det, rfl, by simp [take2000]⟩

theorem prefixStage_inv (aliases : List (String × String)) (inboxId : Nat)
    (raw cat clean : String)
    (hcat : cat = "admin" ∨ cat = "projects" ∨ cat = "ideas" ∨ cat = "people")
    (hclean : pyStrip clean = clean) :
    OutcomeInv aliases inboxId (prefixStage aliases inboxId raw cat clean) := by
  unfold prefixStage
  split
  · -- empty remainder
    exact ⟨Or.inr rfl, logEvent_shape _ _ _, by simp [prefixEmptyOutcome, logEvent],
      fun _ rec hr => absurd hr (by simp [prefixEmptyOutcome]),
      fun hd => absurd hd (by simp [prefixEmptyOutcome])⟩
  · next hne =>
    split
    · -- admin
      next hadmin =>
      refine ⟨Or.inl rfl, logEvent_shape _ _ _, by simp [prefixProcessed, logEvent], ?_,
        fun hd => absurd hd (by simp [prefixProcessed])⟩
      intro _ rec hr
      rw [show rec = Record.admin clean (.str "") "open" by simpa [prefixProcessed] using hr]
      simpa [requiredField, hclean] using hne
    · split
      · -- projects
        refine ⟨Or.inl rfl, logEvent_shape _ _ _, by simp [prefixProcessed, logEvent], ?_,
          fun hd => absurd hd (by simp [prefixProcessed])⟩
        intro _ rec hr
        rw [show rec = Record.project clean "active" (.str "") (.str "") by
          simpa [prefixProcessed] using hr]
        simpa [requiredField, hclean] using hne
      · split
        · -- ideas
          refine ⟨Or.inl rfl, logEvent_shape _ _ _, by simp [prefixProcessed, logEvent], ?_,
            fun hd => absurd hd (by simp [prefixProcessed])⟩
          intro _ rec hr
          rw [show rec = Record.idea clean (.str "") (.str "") by
            simpa [prefixProcessed] using hr]
          simpa [requiredField, hclean] using hne
        · split
          · -- people
            split
            · exact ⟨Or.inr rfl, logEvent_shape _ _ _,
                by simp [prefixMissingNameOutcome, logEvent],
                fun _ rec hr => absurd hr (by simp [prefixMissingNameOutcome]),
                fun hd => absurd hd (by simp [prefixMissingNameOutcome])⟩
            · next hname =>
              refine ⟨Or.inl rfl, logEvent_shape _ _ _,
                by simp [prefixProcessed, logEvent], ?_,
                fun hd => absurd hd (by simp [prefixProcessed])⟩
              intro halias rec hr
              rw [show rec = Record.people (resolvePrefixName aliases clean) (.str "")
                  (.str raw) (.str "") by simpa [prefixProcessed] using hr]
              simpa [requiredField, resolve_trimmed halias hclean] using hname
          · -- impossible: the category came from `pre_route`
            next h1 h2 h3 h4 =>
            rcases hcat with h | h | h | h <;> simp [h] at h1 h2 h3 h4

theorem gatingOutcome_inv (aliases : List (String × String)) (inboxId : Nat)
    (c : String) (conf : ℚ) (r : Json) :
    OutcomeInv aliases inboxId (gatingOutcome inboxId c conf r) :=
  ⟨Or.inr rfl, logEvent_shape _ _ _, by simp [gatingOutcome],
   fun _ rec hr => absurd hr (by simp [gatingOutcome]),
   fun hd => absurd hd (by simp [gatingOutcome])⟩

theorem missingFieldOutcome_inv (aliases : List (String × String)) (inboxId : Nat)
    (c : String) (conf : ℚ) (reason : String) :
    OutcomeInv aliases inboxId (missingFieldOutcome inboxId c conf reason) :=
  ⟨Or.inr rfl, logEvent_shape _ _ _, by simp [missingFieldOutcome],
   fun _ rec hr => absurd hr (by simp [missingFieldOutcome]),
   fun hd => absurd hd (by simp [missingFieldOutcome])⟩

theorem fallbackFailOutcome_inv (aliases : List (String × String)) (inboxId : Nat)
    (lastErr : String) :
    OutcomeInv aliases inboxId (fallbackFailOutcome inboxId lastErr) :=
  ⟨Or.inr rfl, logEvent_shape _ _ _, by simp [fallbackFailOutcome],
   fun _ rec hr => absurd hr (by simp [fallbackFailOutcome]),
   fun _ => ⟨lastErr, rfl⟩⟩

theorem processedOutcome_inv (aliases : List (String × String)) (inboxId : Nat)
    (c : String) (conf : ℚ) (r : Json) (rec : Record)
    (htrim : TrimmedAliases aliases → pyStrip (requiredField rec) ≠ "") :
    OutcomeInv aliases inboxId (processedOutcome inboxId c conf r [rec]) := by
  refine ⟨Or.inl rfl, logEvent_shape _ _ _, by simp [processedOutcome], ?_,
    fun hd => absurd hd (by simp [processedOutcome])⟩
  intro halias rec' hr'
  rw [show rec' = rec by simpa [processedOutcome] using hr']
  exact htrim halias

/-- `catOf` only certifies the four valid categories. -/
theorem catOf_valid {v : Json} {c : String} (h : catOf v = some c) :
    c = "people" ∨ c = "projects" ∨ c = "ideas" ∨ c = "admin" := by
  unfold catOf at h
  split at h
  · next s =>
    split at h
    · next hmem =>
      injection h with hc
      subst hc
      simpa [validCats] using hmem
    · exact absurd h (by simp)
  · exact absurd h (by simp)

theorem peopleStage_inv (aliases : List (String × String)) (inboxId : Nat) (raw : String)
    (result fields : Json) (c : String) (confidence : ℚ) (out : ItemOutcome)
    (h : peopleStage aliases inboxId raw result fields c confidence = .ok out) :
    OutcomeInv aliases inboxId out := by
  unfold peopleStage at h
  rcases h1 : dictGetOpt fields "name" with e | nameRaw
  · rw [h1] at h; simp at h
  rw [h1] at h; dsimp only at h
  rcases h2 : pyOrStrip (nameRaw.getD .null) "" with e | name0
  · rw [h2] at h; simp at h
  rw [h2] at h; dsimp only at h
  split at h
  · injection h with h'
    exact h' ▸ missingFieldOutcome_inv _ _ _ _ _
  · next hname =>
    rcases h3 : dictGetOpt fields "context" with e | ctx
    · rw [h3] at h; simp at h
    rw [h3] at h
    rcases h4 : dictGetOpt fields "follow_up" with e | fup
    · rw [h4] at h; simp at h
    rw [h4] at h
    rcases h5 : dictGetOpt fields "last_contact" with e | lc
    · rw [h5] at h; simp at h
    rw [h5] at h; dsimp only at h
    injection h with h'
    refine h' ▸ processedOutcome_inv _ _ _ _ _ _ ?_
    intro halias
    simp only [requiredField]
    unfold peopleName at hname ⊢
    by_cases h0 : name0 = ""
    · rw [if_pos h0] at hname ⊢
      rw [infer_trimmed halias]
      exact hname
    · rw [if_neg h0] at hname ⊢
      rw [pyOrStrip_trimmed h2]
      exact hname

theorem projectsStage_inv (aliases : List (String × String)) (inboxId : Nat)
    (result fields : Json) (c : String) (confidence : ℚ) (out : ItemOutcome)
    (h : projectsStage inboxId result fields c confidence = .ok out) :
    OutcomeInv aliases inboxId out := by
  unfold projectsStage at h
  rcases h1 : dictGetOpt fields "name" with e | nameRaw
  · rw [h1] at h; simp at h
  rw [h1] at h; dsimp only at h
  rcases h2 : pyOrStrip (nameRaw.getD .null) "" with e | name
  · rw [h2] at h; simp at h
  rw [h2] at h; dsimp only at h
  split at h
  · injection h with h'
    exact h' ▸ missingFieldOutcome_inv _ _ _ _ _
  · next hname =>
    rcases h3 : dictGetOpt fields "status" with e | statusRaw
    · rw [h3] at h; simp at h
    rw [h3] at h; dsimp only at h
    rcases h4 : pyOrStrip (statusRaw.getD .null) "active" with e | status0
    · rw [h4] at h; simp at h
    rw [h4] at h; dsimp only at h
    rcases h5 : dictGetOpt fields "next_action" with e | na
    · rw [h5] at h; simp at h
    rw [h5] at h
    rcases h6 : dictGetOpt fields "notes" with e | notes
    · rw [h6] at h; simp at h
    rw [h6] at h; dsimp only at h
    injection h with h'
    refine h' ▸ processedOutcome_inv _ _ _ _ _ _ ?_
    intro _
    simp only [requiredField]
    rw [pyOrStrip_trimmed h2]
    exact hname

theorem ideasStage_inv (aliases : List (String × String)) (inboxId : Nat)
    (pairs : List (String × Json)) (result fields : Json) (c : String)
    (confidence : ℚ) (out : ItemOutcome)
    (h : ideasStage inboxId pairs result fields c confidence = .ok out) :
    OutcomeInv aliases inboxId out := by
  unfold ideasStage at h
  rcases h1 : dictGetOpt fields "title" with e | titleRaw
  · rw [h1] at h; simp at h
  rw [h1] at h; dsimp only at h
  rcases h2 : pyOrStrip (pyOr (titleRaw.getD .null) ((lookupJ pairs "title").getD .null)) ""
    with e | title
  · rw [h2] at h; simp at h
  rw [h2] at h; dsimp only at h
  split at h
  · injection h with h'
    exact h' ▸ missingFieldOutcome_inv _ _ _ _ _
  · next htitle =>
    rcases h3 : dictGetOpt fields "one_liner" with e | ol
    · rw [h3] at h; simp at h
    rw [h3] at h
    rcases h4 : dictGetOpt fields "notes" with e | notes
    · rw [h4] at h; simp at h
    rw [h4] at h; dsimp only at h
    injection h with h'
    refine h' ▸ processedOutcome_inv _ _ _ _ _ _ ?_
    intro _
    simp only [requiredField]
    rw [pyOrStrip_trimmed h2]
    exact htitle

theorem adminStage_inv (aliases : List (String × String)) (inboxId : Nat)
    (result fields : Json) (c : String) (confidence : ℚ) (out : ItemOutcome)
    (h : adminStage inboxId result fields c confidence = .ok out) :
    OutcomeInv aliases inboxId out := by
  unfold adminStage at h
  rcases h1 : dictGetOpt fields "task" with e | taskRaw
  · rw [h1] at h; simp at h
  rw [h1] at h; dsimp only at h
  rcases h2 : pyOrStrip (taskRaw.getD .null) "" with e | task
  · rw [h2] at h; simp at h
  rw [h2] at h; dsimp only at h
  split at h
  · injection h with h'
    exact h' ▸ missingFieldOutcome_inv _ _ _ _ _
  · next htask =>
    rcases h3 : dictGetOpt fields "status" with e | statusRaw
    · rw [h3] at h; simp at h
    rw [h3] at h; dsimp only at h
    rcases h4 : pyOrStrip (statusRaw.getD .null) "open" with e | status0
    · rw [h4] at h; simp at h
    rw [h4] at h; dsimp only at h
    rcases h5 : dictGetOpt fields "due_date" with e | dd
    · rw [h5] at h; simp at h
    rw [h5] at h; dsimp only at h
    injection h with h'
    refine h' ▸ processedOutcome_inv _ _ _ _ _ _ ?_
    intro _
    simp only [requiredField]
    rw [pyOrStrip_trimmed h2]
    exact htask

theorem categoryStage_inv (aliases : List (String × String)) (inboxId : Nat) (raw : String)
    (pairs : List (String × Json)) (c : String) (confidence : ℚ) (fields : Json)
    (out : ItemOutcome)
    (hvalid : c = "people" ∨ c = "projects" ∨ c = "ideas" ∨ c = "admin")
    (h : categoryStage aliases inboxId raw pairs c confidence fields = .ok out) :
    OutcomeInv aliases inboxId out := by
  unfold categoryStage at h
  split at h
  · exact peopleStage_inv _ _ _ _ _ _ _ _ h
  · split at h
    · exact projectsStage_inv _ _ _ _ _ _ _ h
    · split at h
      · exact ideasStage_inv _ _ _ _ _ _ _ _ h
      · split at h
        · exact adminStage_inv _ _ _ _ _ _ _ h
        · next h1 h2 h3 h4 =>
          rcases hvalid with hc | hc | hc | hc <;> simp [hc] at h1 h2 h3 h4

theorem fallbackStage_inv (aliases : List (String × String))
    (cls : Nat → Except String String) (inboxId : Nat) (raw : String) (out : ItemOutcome)
    (h : fallbackStage aliases cls inboxId raw = .ok out) :
    OutcomeInv aliases inboxId out := by
  unfold fallbackStage at h
  split at h
  · -- total failure
    injection h with h'
    exact h' ▸ fallbackFailOutcome_inv _ _ _
  · next _e _n _heq =>
    rename_i pairs
    rcases hf : pyFloat (pyOr ((lookupJ pairs "confidence").getD (Json.num 0)) (Json.num 0))
      with e | confidence
    · rw [hf] at h; simp at h
    rw [hf] at h; dsimp only at h
    rcases hc : catOf ((lookupJ pairs "category").getD (Json.str "unknown")) with _ | c
    · rw [hc] at h; dsimp only at h
      injection h with h'
      exact h' ▸ gatingOutcome_inv _ _ _ _ _
    rw [hc] at h; dsimp only at h
    split at h
    · injection h with h'
      exact h' ▸ gatingOutcome_inv _ _ _ _ _
    · exact categoryStage_inv _ _ _ _ _ _ _ _ (catOf_valid hc) h

/-- Every `.ok` outcome of one item's processing satisfies the master
    invariant. -/
theorem processItem_inv (aliases : List (String × String))
    (cls : Nat → Except String String) (inboxId : Nat) (raw : String) (out : ItemOutcome)
    (h : processItem aliases cls inboxId raw = .ok out) :
    OutcomeInv aliases inboxId out := by
  unfold processItem at h
  split at h
  · next cat clean hroute =>
    injection h with h'
    obtain ⟨hcat, hclean⟩ := pre_route_shape hroute
    exact h' ▸ prefixStage_inv aliases inboxId raw cat clean hcat hclean
  · exact fallbackStage_inv _ _ _ _ _ h

/- ===== Lemmas about the retry loop. ===== -/

/-- One attempt fails outright: the process raised, or its output had no
    extractable JSON. -/
def attemptFails (c : Except String String) : Prop :=
  (∃ e, c = .error e) ∨ (∃ o, c = .ok o ∧ extract_json o = none)

/-- The `last_err` string an attempt leaves behind when it does not
    succeed. -/
def stepErr (c : Except String String) (idx : Nat) : String :=
  match c with
  | .error e => e
  | .ok _ => invalidJsonErr idx

/-- One attempt succeeds: the output parses to a nonempty JSON object
    (`if parsed and isinstance(parsed, dict)`). -/
def attemptSucceeds (c : Except String String) : Prop :=
  ∃ o l, c = .ok o ∧ extract_json o = some (.obj l) ∧ l ≠ []

/-- The loop makes at most as many classifier calls as it has attempts. -/
theorem fallbackGo_calls_le (cls : Nat → Except String String) :
    ∀ rem idx lastErr, (fallbackGo cls idx rem lastErr).2.2 ≤ rem := by
  intro rem
  induction rem with
  | zero => intro idx lastErr; simp [fallbackGo]
  | succ n ih =>
    intro idx lastErr
    rw [fallbackGo]
    rcases hc : cls idx with e | o
    · simpa using ih (idx + 1) e
    · dsimp only
      rcases hx : extract_json o with _ | v
      · simpa using ih (idx + 1) (invalidJsonErr idx)
      · rcases v with _ | b | q | s | l | pairs
        · simpa using ih (idx + 1) (invalidJsonErr idx)
        · simpa using ih (idx + 1) (invalidJsonErr idx)
        · simpa using ih (idx + 1) (invalidJsonErr idx)
        · simpa using ih (idx + 1) (invalidJsonErr idx)
        · simpa using ih (idx + 1) (invalidJsonErr idx)
        · rcases pairs with _ | ⟨p, ps⟩
          · simpa using ih (idx + 1) (invalidJsonErr idx)
          · simp

/-- Stepping past an attempt that fails outright threads its error
    string. -/
theorem fallbackGo_fail_step (cls : Nat → Except String String) (idx rem : Nat)
    (lastErr : String) (hf : attemptFails (cls idx)) :
    fallbackGo cls idx (rem + 1) lastErr =
      ((fallbackGo cls (idx + 1) rem (stepErr (cls idx) idx)).1,
       (fallbackGo cls (idx + 1) rem (stepErr (cls idx) idx)).2.1,
       (fallbackGo cls (idx + 1) rem (stepErr (cls idx) idx)).2.2 + 1) := by
  rw [fallbackGo]
  rcases hf with ⟨e, he⟩ | ⟨o, ho, hx⟩
  · rw [he]
    simp [stepErr, he]
  · rw [ho]
    dsimp only
    rw [hx]
    simp [stepErr, ho]

/-- Stepping past an attempt that does not succeed (for any reason,
    including a parseable but falsy or non-dict value). -/
theorem fallbackGo_nosucc_step (cls : Nat → Except String String) (idx rem : Nat)
    (lastErr : String) (hf : ¬ attemptSucceeds (cls idx)) :
    ∃ e', fallbackGo cls idx (rem + 1) lastErr =
      ((fallbackGo cls (idx + 1) rem e').1,
       (fallbackGo cls (idx + 1) rem e').2.1,
       (fallbackGo cls (idx + 1) rem e').2.2 + 1) := by
  rw [fallbackGo]
  rcases hc : cls idx with e | o
  · exact ⟨e, by simp⟩
  · dsimp only
    rcases hx : extract_json o with _ | v
    · exact ⟨invalidJsonErr idx, by simp⟩
    · rcases v with _ | b | q | s | l | pairs
      · exact ⟨invalidJsonErr idx, by simp⟩
      · exact ⟨invalidJsonErr idx, by simp⟩
      · exact ⟨invalidJsonErr idx, by simp⟩
      · exact ⟨invalidJsonErr idx, by simp⟩
      · exact ⟨invalidJsonErr idx, by simp⟩
      · rcases pairs with _ | ⟨p, ps⟩
        · exact ⟨invalidJsonErr idx, by simp⟩
        · exact absurd ⟨o, p :: ps, hc, hx, by simp⟩ hf

/-- A successful attempt stops the loop at once, spending one call and
    keeping the incoming `last_err`. -/
theorem fallbackGo_succ_step (cls : Nat → Except String String) (idx rem : Nat)
    (lastErr : String) (hf : attemptSucceeds (cls idx)) :
    ∃ l, l ≠ [] ∧ (∃ o, cls idx = .ok o ∧ extract_json o = some (.obj l)) ∧
      fallbackGo cls idx (rem + 1) lastErr = (some l, lastErr, 1) := by
  obtain ⟨o, l, ho, hx, hl⟩ := hf
  refine ⟨l, hl, ⟨o, ho, hx⟩, ?_⟩
  rw [fallbackGo, ho]
  dsimp only
  rw [hx]
  rcases l with _ | ⟨p, ps⟩
  · exact absurd rfl hl
  · simp

/-- Three failing attempts exhaust the loop; the final `last_err` is the
    third attempt's error. -/
theorem fallbackGo_all_fail (cls : Nat → Except String String)
    (hf : ∀ i, i < MAX_RETRIES + 1 → attemptFails (cls i)) :
    fallbackGo cls 0 (MAX_RETRIES + 1) "" = (none, stepErr (cls 2) 2, 3) := by
  have h0 := fallbackGo_fail_step cls 0 2 "" (hf 0 (by simp [MAX_RETRIES]))
  have h1 := fallbackGo_fail_step cls 1 1 (stepErr (cls 0) 0) (hf 1 (by simp [MAX_RETRIES]))
  have h2 := fallbackGo_fail_step cls 2 0 (stepErr (cls 1) 1) (hf 2 (by simp [MAX_RETRIES]))
  show fallbackGo cls 0 (2 + 1) "" = (none, stepErr (cls 2) 2, 3)
  rw [h0, h1, h2]
  simp [fallbackGo]

/-- Under a failing loop and no prefix match, the item's outcome is exactly
    the total-failure outcome. -/
theorem processItem_fallback_fail (aliases : List (String × String))
    (cls : Nat → Except String String) (inboxId : Nat) (raw : String)
    (lastErr : String) (n : Nat)
    (hpre : pre_route raw = none)
    (hgo : fallbackGo cls 0 (MAX_RETRIES + 1) "" = (none, lastErr, n)) :
    processItem aliases cls inboxId raw = .ok (fallbackFailOutcome inboxId lastErr) := by
  simp only [processItem, hpre, fallbackStage, hgo]

/- ===== Claim theorems. ===== -/

/-- A classifier that raises on the first attempt and then returns
    unparsable output. -/
def clsFailAll : Nat → Except String String :=
  fun i => if i = 0 then .error "boom zero" else .ok "no json here"

/-- Claim C1, counterexample: with an alias table mapping `mom` to a
    whitespace-only value, the prefix path inserts a people record whose
    required `name` field is empty after trimming, and still marks the item
    `processed` — against the stated central invariant. -/
theorem claim_C1_counterexample :
    processItem [("mom", " ")] (fun _ => .error "unused") 1 "person: mom" =
      .ok { update := ⟨"processed", some "people", some 1, some "prefix", some ""⟩,
            inserts := [.people " " (.str "") (.str "person: mom") (.str "")],
            logs := [⟨"processed", 1, "prefix_route -> people"⟩] }
    ∧ pyStrip " " = "" := by
  decide

/-- Claim C1 (amended): provided every alias-table value carries no
    surrounding whitespace, every category record the pipeline inserts has
    a required field that is non-empty after trimming, records exist
    exactly for `processed` items, and each handled item ends in a terminal
    status.  This holds over both the prefix path and the fallback path. -/
theorem claim_C1 (aliases : List (String × String)) (cls : Nat → Except String String)
    (inboxId : Nat) (raw : String) (out : ItemOutcome)
    (halias : TrimmedAliases aliases)
    (h : processItem aliases cls inboxId raw = .ok out) :
    (∀ rec ∈ out.inserts, pyStrip (requiredField rec) ≠ "")
    ∧ (out.update.status = "processed" ↔ out.inserts ≠ [])
    ∧ (out.update.status = "processed" ∨ out.update.status = "needs_review") := by
  obtain ⟨h1, _, h3, h4, _⟩ := processItem_inv _ _ _ _ _ h
  exact ⟨h4 halias, h3, h1⟩

/-- Witness for C1 at a concrete item and alias table. -/
theorem claim_C1_witness :
    (∀ rec ∈ [Record.people "Jane Doe" (.str "") (.str "person: mom") (.str "")],
        pyStrip (requiredField rec) ≠ "")
    ∧ (("processed" : String) = "processed" ↔
        ([Record.people "Jane Doe" (.str "") (.str "person: mom") (.str "")] :
          List Record) ≠ [])
    ∧ (("processed" : String) = "processed" ∨ ("processed" : String) = "needs_review") :=
  claim_C1 [("mom", "Jane Doe")] (fun _ => .error "unused") 1 "person: mom"
    { update := ⟨"processed", some "people", some 1, some "prefix", some ""⟩,
      inserts := [.people "Jane Doe" (.str "") (.str "person: mom") (.str "")],
      logs := [⟨"processed", 1, "prefix_route -> people"⟩] }
    (by unfold TrimmedAliases; decide) (by decide)

/-- Claim C2, counterexample: the remainder `mom` of a people-prefixed item
    is resolved through the kinship heuristic, so the created record's
    required field is `Mom`, not the trimmed remainder `mom` — the claim's
    "required field equals the trimmed remainder" fails on the people
    path even with an empty alias table. -/
theorem claim_C2_counterexample :
    pre_route "person: mom" = some ("people", "mom")
    ∧ processItem [] (fun _ => .error "unused") 1 "person: mom" =
        .ok { update := ⟨"processed", some "people", some 1, some "prefix", some ""⟩,
              inserts := [.people "Mom" (.str "") (.str "person: mom") (.str "")],
              logs := [⟨"processed", 1, "prefix_route -> people"⟩] }
    ∧ ("Mom" : String) ≠ "mom" := by
  decide

/-- Claim C2 (amended): for raw text firing a recognized prefix with
    non-empty remainder, the item becomes `processed` with the prefix's
    category, confidence 1.0 and model tag `prefix`, and exactly one record
    is created whose required field equals the trimmed remainder — except
    on the people path, where the remainder is first resolved through the
    alias table / kinship heuristic: the record carries the resolved name,
    and when that resolution is empty the item is instead marked
    `needs_review` with no record. -/
theorem claim_C2 (aliases : List (String × String)) (cls : Nat → Except String String)
    (inboxId : Nat) (raw cat clean : String)
    (hroute : pre_route raw = some (cat, clean)) (hne : clean ≠ "") :
    ∃ out, processItem aliases cls inboxId raw = .ok out ∧
      (cat ≠ "people" →
        out.update = ⟨"processed", some cat, some 1, some "prefix", some ""⟩ ∧
        ∃ rec, out.inserts = [rec] ∧ requiredField rec = clean) ∧
      (cat = "people" →
        (resolvePrefixName aliases clean ≠ "" →
          out.update = ⟨"processed", some cat, some 1, some "prefix", some ""⟩ ∧
          out.inserts =
            [.people (resolvePrefixName aliases clean) (.str "") (.str raw) (.str "")]) ∧
        (resolvePrefixName aliases clean = "" →
          out.update.status = "needs_review" ∧ out.inserts = [])) := by
  refine ⟨prefixStage aliases inboxId raw cat clean, by simp [processItem, hroute], ?_, ?_⟩
  · intro hnp
    obtain ⟨hcat, _⟩ := pre_route_shape hroute
    rcases hcat with h | h | h | h
    · subst h
      exact ⟨by simp [prefixStage, hne, prefixProcessed],
        Record.admin clean (.str "") "open",
        by simp [prefixStage, hne, prefixProcessed], rfl⟩
    · subst h
      exact ⟨by simp [prefixStage, hne, prefixProcessed],
        Record.project clean "active" (.str "") (.str ""),
        by simp [prefixStage, hne, prefixProcessed], rfl⟩
    · subst h
      exact ⟨by simp [prefixStage, hne, prefixProcessed],
        Record.idea clean (.str "") (.str ""),
        by simp [prefixStage, hne, prefixProcessed], rfl⟩
    · exact absurd h hnp
  · intro hp
    subst hp
    constructor
    · intro hres
      exact ⟨by simp [prefixStage, hne, hres, prefixProcessed],
        by simp [prefixStage, hne, hres, prefixProcessed]⟩
    · intro hres
      exact ⟨by simp [prefixStage, hne, hres, prefixMissingNameOutcome],
        by simp [prefixStage, hne, hres, prefixMissingNameOutcome]⟩

/-- Witness for C2 at a concrete admin-prefixed item. -/
theorem claim_C2_witness :
    ∃ out, processItem [] (fun _ => .error "unused") 1 "admin: pay bills" = .ok out ∧
      (("admin" : String) ≠ "people" →
        out.update = ⟨"processed", some "admin", some 1, some "prefix", some ""⟩ ∧
        ∃ rec, out.inserts = [rec] ∧ requiredField rec = "pay bills") ∧
      (("admin" : String) = "people" →
        (resolvePrefixName [] "pay bills" ≠ "" →
          out.update = ⟨"processed", some "admin", some 1, some "prefix", some ""⟩ ∧
          out.inserts =
            [.people (resolvePrefixName [] "pay bills") (.str "")
              (.str "admin: pay bills") (.str "")]) ∧
        (resolvePrefixName [] "pay bills" = "" →
          out.update.status = "needs_review" ∧ out.inserts = [])) :=
  claim_C2 [] (fun _ => .error "unused") 1 "admin: pay bills" "admin" "pay bills"
    (by decide) (by decide)

/-- Claim C3 (the code contradicts it): classifier output whose
    `confidence` is a non-numeric string makes `float()` raise outside any
    per-item exception handler; the exception escapes `processItem` and
    aborts the whole batch, so the second item is never processed. -/
theorem claim_C3 :
    processItem [] (fun _ => .ok "\x7b\"category\": \"people\", \"confidence\": \"high\"\x7d")
        1 "call Bob about the order" =
      .error "could not convert string to float: high"
    ∧ runBatch [] (fun _ _ => .ok "\x7b\"category\": \"people\", \"confidence\": \"high\"\x7d")
        [(1, "call Bob about the order"), (2, "second note")] =
      .error "could not convert string to float: high" := by
  decide

/-- Claim C4, counterexample: the output `\x7b\x7d` parses to the empty
    JSON object — a non-none object — yet because `if parsed and
    isinstance(parsed, dict)` treats the empty dict as falsy, the attempt
    does not succeed: the loop spends all three calls and ends with no
    result. -/
theorem claim_C4_counterexample :
    extract_json "\x7b\x7d" = some (Json.obj [])
    ∧ fallbackGo (fun _ => .ok "\x7b\x7d") 0 (MAX_RETRIES + 1) "" =
        (none, invalidJsonErr 2, 3) := by
  decide

/-- Claim C4 (amended): the retry loop makes at most `MAX_RETRIES + 1 = 3`
    classifier calls, and stops at the first attempt whose parsed result is
    a non-empty object (Python's truthy-dict test), spending exactly that
    many calls and no more.  Parseable results that are empty objects or
    non-objects do not stop the loop. -/
theorem claim_C4 (cls : Nat → Except String String) :
    (fallbackGo cls 0 (MAX_RETRIES + 1) "").2.2 ≤ MAX_RETRIES + 1
    ∧ ∀ i, i < MAX_RETRIES + 1 → attemptSucceeds (cls i) →
        (∀ j, j < i → ¬ attemptSucceeds (cls j)) →
        ∃ l e', l ≠ [] ∧
          fallbackGo cls 0 (MAX_RETRIES + 1) "" = (some l, e', i + 1) ∧
          ∃ o, cls i = .ok o ∧ extract_json o = some (.obj l) := by
  constructor
  · exact fallbackGo_calls_le cls (MAX_RETRIES + 1) 0 ""
  · intro i hi hs hprev
    match i, hi with
    | 0, _ =>
      obtain ⟨l, hl, ho, hgo⟩ := fallbackGo_succ_step cls 0 2 "" hs
      exact ⟨l, "", hl, hgo, ho⟩
    | 1, _ =>
      obtain ⟨e1, h0⟩ := fallbackGo_nosucc_step cls 0 2 "" (hprev 0 (by omega))
      obtain ⟨l, hl, ho, hgo⟩ := fallbackGo_succ_step cls 1 1 e1 hs
      refine ⟨l, e1, hl, ?_, ho⟩
      show fallbackGo cls 0 (2 + 1) "" = (some l, e1, 2)
      rw [h0, hgo]
    | 2, _ =>
      obtain ⟨e1, h0⟩ := fallbackGo_nosucc_step cls 0 2 "" (hprev 0 (by omega))
      obtain ⟨e2, h1⟩ := fallbackGo_nosucc_step cls 1 1 e1 (hprev 1 (by omega))
      obtain ⟨l, hl, ho, hgo⟩ := fallbackGo_succ_step cls 2 0 e2 hs
      refine ⟨l, e2, hl, ?_, ho⟩
      show fallbackGo cls 0 (2 + 1) "" = (some l, e2, 3)
      rw [h0, h1, hgo]

/-- Witness for C4: a first attempt that already yields a non-empty object
    stops the loop after one call. -/
theorem claim_C4_witness :
    ∃ l e', l ≠ [] ∧
      fallbackGo (fun _ => .ok "\x7b\"a\": 1\x7d") 0 (MAX_RETRIES + 1) "" =
        (some l, e', 0 + 1) ∧
      ∃ o, (fun (_ : Nat) => Except.ok (ε := String) "\x7b\"a\": 1\x7d") 0 = .ok o ∧
        extract_json o = some (.obj l) :=
  (claim_C4 (fun _ => .ok "\x7b\"a\": 1\x7d")).2 0 (by omega)
    ⟨"\x7b\"a\": 1\x7d", [("a", Json.num 1)], rfl, by decide, by decide⟩
    (fun j hj => absurd hj (Nat.not_lt_zero j))

/- ===== Lemmas about the shape of brace-fallback parses (for C5). ===== -/

theorem firstIdxOf_head {c : Char} {l : List Char} {i : Nat}
    (h : firstIdxOf c l = some i) : (l.drop i).head? = some c := by
  induction l generalizing i with
  | nil => simp [firstIdxOf] at h
  | cons d rest ih =>
    rw [firstIdxOf] at h
    split at h
    · next hd =>
      injection h with hi
      subst hd
      rw [← hi]
      rfl
    · rcases hr : firstIdxOf c rest with _ | k
      · rw [hr] at h; simp at h
      · rw [hr] at h
        simp at h
        rw [← h]
        simpa using ih hr

/-- The brace-fallback substring starts with an opening brace. -/
theorem braceBlob_head {l blob : List Char} (h : braceBlob l = some blob) :
    blob.head? = some '{' := by
  unfold braceBlob at h
  rcases hf : firstIdxOf '{' l with _ | i
  · rw [hf] at h; simp at h
  rcases hc : lastClose l with _ | j
  · rw [hf, hc] at h; simp at h
  rw [hf, hc] at h
  dsimp only at h
  split at h
  · next hij =>
    injection h with hb
    rw [← hb]
    obtain ⟨k, hk⟩ : ∃ k, j - i + 1 = k + 1 := ⟨j - i, rfl⟩
    rw [hk]
    have hh := firstIdxOf_head hf
    rcases hd : l.drop i with _ | ⟨x, xs⟩
    · rw [hd] at hh; simp at hh
    · rw [hd] at hh
      simp at hh
      simp [hd, hh]
  · exact absurd h (by simp)

/-- A successful parse of text beginning with an opening brace yields an
    object. -/
theorem parseValue_brace {fuel : Nat} {blob : List Char} {v : Json} {rest : List Char}
    (hb : blob.head? = some '{') (h : parseValue fuel blob = some (v, rest)) :
    ∃ pairs, v = Json.obj pairs := by
  cases fuel with
  | zero => simp [parseValue] at h
  | succ m =>
    rcases blob with _ | ⟨c, t⟩
    · simp at hb
    · have hc : c = '{' := by simpa using hb
      subst hc
      rw [parseValue] at h
      have hsw : skipWs ('{' :: t) = '{' :: t := by
        rw [skipWs, show isJWs '{' = false from rfl]
        simp
      rw [hsw] at h
      dsimp only at h
      rw [if_pos rfl] at h
      rcases hob : parseObjectBody m t with _ | p
      · rw [hob] at h; simp at h
      · rw [hob] at h
        simp at h
        exact ⟨p.1, h.1.symm⟩

/-- `loads` on a brace-delimited blob only returns objects. -/
theorem loads_brace_obj {blob : List Char} {v : Json}
    (hb : blob.head? = some '{') (h : loads blob = some v) :
    ∃ pairs, v = Json.obj pairs := by
  unfold loads at h
  rcases hp : parseValue (2 * blob.length + 8) blob with _ | pr
  · rw [hp] at h; simp at h
  · rcases pr with ⟨v', rest⟩
    rw [hp] at h
    dsimp only at h
    split at h
    · injection h with hv
      exact hv ▸ parseValue_brace hb hp
    · exact absurd h (by simp)

/-- Claim C5, counterexample: on input `42` the first parse attempt
    succeeds with a JSON number, and `extract_json` returns that value —
    neither an object nor none (the dict check lives at the call site, not
    in the parser). -/
theorem claim_C5_counterexample :
    extract_json "42" = some (Json.num 42)
    ∧ ∀ pairs, Json.num 42 ≠ Json.obj pairs :=
  ⟨by decide, fun _ h => Json.noConfusion h⟩

/-- Claim C5 (amended): `extract_json` returns whatever value the direct
    parse of the stripped input yields, object or not; it returns none
    exactly when the direct parse fails and the brace-delimited attempt
    also fails (or there is no brace-delimited substring); and any value
    produced by the brace-delimited second attempt is an object. -/
theorem claim_C5 (s : String) :
    (∀ v, loads (pyStripL s.data) = some v → extract_json s = some v)
    ∧ (extract_json s = none ↔
        (loads (pyStripL s.data) = none ∧
          ∀ blob, braceBlob (pyStripL s.data) = some blob → loads blob = none))
    ∧ (∀ v, loads (pyStripL s.data) = none → extract_json s = some v →
        ∃ pairs, v = Json.obj pairs) := by
  refine ⟨?_, ?_, ?_⟩
  · intro v hv
    simp [extract_json, hv]
  · constructor
    · intro h
      simp only [extract_json] at h
      rcases hl : loads (pyStripL s.data) with _ | v
      · refine ⟨rfl, ?_⟩
        intro blob hblob
        rw [hl] at h
        dsimp only at h
        rw [hblob] at h
        exact h
      · rw [hl] at h; simp at h
    · rintro ⟨h1, h2⟩
      simp only [extract_json, h1]
      rcases hb : braceBlob (pyStripL s.data) with _ | blob
      · rfl
      · exact h2 blob hb
  · intro v h0 hv
    simp only [extract_json, h0] at hv
    rcases hb : braceBlob (pyStripL s.data) with _ | blob
    · rw [hb] at hv; simp at hv
    · rw [hb] at hv
      exact loads_brace_obj (braceBlob_head hb) hv

/-- Witness for C5: conversational text around an object parses through the
    brace fallback, and the result is an object. -/
theorem claim_C5_witness :
    extract_json "note: \x7b\"a\": 1\x7d ok" = some (Json.obj [("a", Json.num 1)])
    ∧ ∃ pairs, Json.obj [("a", Json.num 1)] = Json.obj pairs := by
  have h := claim_C5 "note: \x7b\"a\": 1\x7d ok"
  exact ⟨by decide, h.2.2 _ (by decide) (by decide)⟩

/-- Claim C6: when no prefix fires and every attempt fails (process error
    or unparsable output), the item becomes `needs_review`, the stored
    error is the last (third) attempt's failure string, the model column
    records the external model, and no category record is created. -/
theorem claim_C6 (aliases : List (String × String)) (cls : Nat → Except String String)
    (inboxId : Nat) (raw : String)
    (hpre : pre_route raw = none)
    (hfail : ∀ i, i < MAX_RETRIES + 1 → attemptFails (cls i)) :
    ∃ out, processItem aliases cls inboxId raw = .ok out ∧
      out.update.status = "needs_review" ∧
      out.update.error = some (stepErr (cls MAX_RETRIES) MAX_RETRIES) ∧
      out.update.model = some MODEL ∧
      out.inserts = [] := by
  have hgo := fallbackGo_all_fail cls hfail
  exact ⟨_, processItem_fallback_fail aliases cls inboxId raw _ _ hpre hgo,
    rfl, rfl, rfl, rfl⟩

/-- Witness for C6 at a concrete failing classifier. -/
theorem claim_C6_witness :
    ∃ out, processItem [] clsFailAll 7 "plain note" = .ok out ∧
      out.update.status = "needs_review" ∧
      out.update.error = some (stepErr (clsFailAll MAX_RETRIES) MAX_RETRIES) ∧
      out.update.model = some MODEL ∧
      out.inserts = [] :=
  claim_C6 [] clsFailAll 7 "plain note" (by decide)
    (by
      intro i hi
      match i, hi with
      | 0, _ => exact Or.inl ⟨"boom zero", rfl⟩
      | 1, _ => exact Or.inr ⟨"no json here", rfl, by decide⟩
      | 2, _ => exact Or.inr ⟨"no json here", rfl, by decide⟩
      | n + 3, hh => exact absurd hh (by simp [MAX_RETRIES]))

/-- Claim C7: a parsed classifier result with a valid category whose
    converted confidence is below the 0.60 threshold gates the item to
    `needs_review` with that category preserved and the confidence stored,
    and no record inserted. -/
theorem claim_C7 (aliases : List (String × String)) (cls : Nat → Except String String)
    (inboxId : Nat) (raw : String) (pairs : List (String × Json)) (le : String) (n : Nat)
    (c : String) (conf : ℚ)
    (hpre : pre_route raw = none)
    (hgo : fallbackGo cls 0 (MAX_RETRIES + 1) "" = (some pairs, le, n))
    (hcat : catOf ((lookupJ pairs "category").getD (.str "unknown")) = some c)
    (hconf : pyFloat (pyOr ((lookupJ pairs "confidence").getD (.num 0)) (.num 0)) = .ok conf)
    (hlow : conf < CONF_THRESHOLD) :
    ∃ out, processItem aliases cls inboxId raw = .ok out ∧
      out.update = ⟨"needs_review", some c, some conf, some MODEL, some ""⟩ ∧
      out.inserts = [] := by
  refine ⟨gatingOutcome inboxId c conf (Json.obj pairs), ?_, rfl, rfl⟩
  simp only [processItem, hpre, fallbackStage, hgo, hconf, hcat, if_pos hlow]

/-- Witness for C7: classifier output with category `people` and
    confidence 0.4. -/
theorem claim_C7_witness :
    ∃ out, processItem []
        (fun _ => .ok "\x7b\"category\": \"people\", \"confidence\": 0.4\x7d")
        5 "some note" = .ok out ∧
      out.update = ⟨"needs_review", some "people", some (mkRat 2 5), some MODEL, some ""⟩ ∧
      out.inserts = [] :=
  claim_C7 [] (fun _ => .ok "\x7b\"category\": \"people\", \"confidence\": 0.4\x7d")
    5 "some note" [("category", Json.str "people"), ("confidence", Json.num (mkRat 2 5))]
    "" 1 "people" (mkRat 2 5)
    (by decide) (by decide) (by decide) (by decide) (by decide)

/-- Claim C8: every transition to `processed` or `needs_review` is
    accompanied by exactly one log row whose `inbox_id` is the item's id,
    whose event equals the terminal status, and whose details fit the
    2000-character truncation. -/
theorem claim_C8 (aliases : List (String × String)) (cls : Nat → Except String String)
    (inboxId : Nat) (raw : String) (out : ItemOutcome)
    (h : processItem aliases cls inboxId raw = .ok out) :
    (out.update.status = "processed" ∨ out.update.status = "needs_review")
    ∧ ∃ d, out.logs = [⟨out.update.status, inboxId, d⟩] ∧ d.data.length ≤ 2000 := by
  obtain ⟨h1, h2, _, _, _⟩ := processItem_inv _ _ _ _ _ h
  exact ⟨h1, h2⟩

/-- Witness for C8 at a concrete prefix-routed item. -/
theorem claim_C8_witness :
    (("processed" : String) = "processed" ∨ ("processed" : String) = "needs_review")
    ∧ ∃ d, [(⟨"processed", 4, "prefix_route -> ideas"⟩ : LogRow)] =
        [(⟨"processed", 4, d⟩ : LogRow)] ∧ d.data.length ≤ 2000 :=
  claim_C8 [] (fun _ => .error "unused") 4 "idea: solar balcony"
    { update := ⟨"processed", some "ideas", some 1, some "prefix", some ""⟩,
      inserts := [.idea "solar balcony" (.str "") (.str "")],
      logs := [⟨"processed", 4, "prefix_route -> ideas"⟩] }
    (by decide)

/-- Claim C9: a people-prefixed item with trimmed remainder `mom` under the
    alias table `mom ↦ Jane Doe` creates a people record named `Jane Doe`
    whose follow-up is the full original raw text (prefix included), and
    the item is marked `processed`. -/
theorem claim_C9 (cls : Nat → Except String String) (inboxId : Nat) (raw : String)
    (hroute : pre_route raw = some ("people", "mom")) :
    processItem [("mom", "Jane Doe")] cls inboxId raw =
      .ok { update := ⟨"processed", some "people", some 1, some "prefix", some ""⟩,
            inserts := [.people "Jane Doe" (.str "") (.str raw) (.str "")],
            logs := [⟨"processed", inboxId, "prefix_route -> people"⟩] } := by
  have hres : resolvePrefixName [("mom", "Jane Doe")] "mom" = "Jane Doe" := by decide
  simp [processItem, hroute, prefixStage, hres, prefixProcessed, logEvent,
    show take2000 "prefix_route -> people" = "prefix_route -> people" from by decide]

/-- Witness for C9 at the literal raw text `person: mom`. -/
theorem claim_C9_witness :
    processItem [("mom", "Jane Doe")] (fun _ => .error "unused") 2 "person: mom" =
      .ok { update := ⟨"processed", some "people", some 1, some "prefix", some ""⟩,
            inserts := [.people "Jane Doe" (.str "") (.str "person: mom") (.str "")],
            logs := [⟨"processed", 2, "prefix_route -> people"⟩] } :=
  claim_C9 (fun _ => .error "unused") 2 "person: mom" (by decide)

/-- Claim C10 (frame property): when the fallback loop yields no result
    the UPDATE writes only status, error and model — category and
    confidence stay unwritten (`none`); and conversely any `.ok` outcome
    whose update leaves category or confidence unwritten is exactly that
    total-failure outcome, so every other branch (in particular every
    other `needs_review` branch) writes both columns. -/
theorem claim_C10 (aliases : List (String × String)) (cls : Nat → Except String String)
    (inboxId : Nat) (raw : String) :
    (∀ lastErr n, pre_route raw = none →
        fallbackGo cls 0 (MAX_RETRIES + 1) "" = (none, lastErr, n) →
        ∃ out, processItem aliases cls inboxId raw = .ok out ∧
          out.update.category = none ∧ out.update.confidence = none ∧
          out.update.status = "needs_review" ∧ out.update.model = some MODEL ∧
          out.update.error = some lastErr)
    ∧ (∀ out, processItem aliases cls inboxId raw = .ok out →
        (out.update.category = none ∨ out.update.confidence = none) →
        ∃ e, out = fallbackFailOutcome inboxId e) := by
  constructor
  · intro lastErr n hpre hgo
    exact ⟨_, processItem_fallback_fail aliases cls inboxId raw _ _ hpre hgo,
      rfl, rfl, rfl, rfl, rfl⟩
  · intro out h hnone
    exact (processItem_inv _ _ _ _ _ h).2.2.2.2 hnone

/-- Witness for C10 at a concrete failing classifier. -/
theorem claim_C10_witness :
    ∃ out, processItem [] clsFailAll 3 "plain note" = .ok out ∧
      out.update.category = none ∧ out.update.confidence = none ∧
      out.update.status = "needs_review" ∧ out.update.model = some MODEL ∧
      out.update.error = some "invalid json (attempt 2)" :=
  (claim_C10 [] clsFailAll 3 "plain note").1 "invalid json (attempt 2)" 3
    (by decide) (by decide)

end SecondBrain
